import Mathlib

/-!
Verification development for the financial portfolio analyzer
(src/portfolio_analyzer.py).  The Python code is shallowly embedded:
SQLite tables and Python dicts become association lists, money and prices
become rationals, and the statistics that need a square root live in ℝ.
-/

namespace PortfolioAnalyzer

/-- First-match lookup in an association list keyed by strings.
Models both a Python dict read `d.get(k)` and the SQL
`SELECT ... WHERE symbol = ?` against a primary-key column. -/
def dictGet {α : Type} : List (String × α) → String → Option α
  | [], _ => none
  | (k, v) :: rest, s => if k = s then some v else dictGet rest s

/-- Remove every binding of a key. -/
def dictErase {α : Type} (l : List (String × α)) (s : String) : List (String × α) :=
  l.filter (fun p => p.1 ≠ s)

/-- Replace the binding of key `s` by `v` (last-write-wins): models both a
Python dict assignment `d[s] = v` and the SQL `INSERT OR REPLACE` on a
primary-key column. -/
def upsert {α : Type} (l : List (String × α)) (s : String) (v : α) : List (String × α) :=
  dictErase l s ++ [(s, v)]

/-- A market quote as built by `_fetch_from_api` and stored (as JSON) in the
`market_data` table. -/
structure Quote where
  symbol : String
  price : ℚ
  change : ℚ
  change_percent : String
  volume : ℤ
  latest_trading_day : String
deriving Repr, DecidableEq

/-- One purchase lot, a row of the `holdings` table
(portfolio_id is kept separately). -/
structure Holding where
  symbol : String
  quantity : ℚ
  purchase_price : ℚ
  purchase_date : String
deriving Repr, DecidableEq

/-- One per-lot line item of the valuation snapshot, as appended to
`portfolio[holdings]` in `get_portfolio`. -/
structure HoldingView where
  symbol : String
  quantity : ℚ
  purchase_price : ℚ
  purchase_date : String
  current_price : ℚ
  current_value : ℚ
  cost_basis : ℚ
  gain : ℚ
  gain_percent : ℚ
deriving Repr, DecidableEq

/-- A row of the `portfolios` table. -/
structure PortfolioRow where
  id : ℕ
  user_id : ℕ
  name : String
deriving Repr, DecidableEq

/-- The dict returned by `get_portfolio` for a known portfolio id. -/
structure PortfolioView where
  id : ℕ
  user_id : ℕ
  name : String
  holdings : List HoldingView
  total_value : ℚ
  total_cost : ℚ
  total_gain : ℚ
  total_gain_percent : ℚ
deriving Repr, DecidableEq

/-- The persistent SQLite state used by the analyzer. -/
structure Database where
  portfolios : List PortfolioRow
  holdings : List (ℕ × Holding)
  market_data : List (String × Quote)
deriving Repr

/-- Models `_update_market_data`: one `INSERT OR REPLACE` per symbol of the batch. -/
def update_market_data (db : List (String × Quote)) (batch : List (String × Quote)) :
    List (String × Quote) :=
  batch.foldl (fun acc p => upsert acc p.1 p.2) db

/-- Models `get_cached_market_data`: one point lookup per requested symbol; a hit
is stored into the results dict, a miss adds nothing. -/
def get_cached_market_data (db : List (String × Quote)) (symbols : List String) :
    List (String × Quote) :=
  symbols.foldl
    (fun res s =>
      match dictGet db s with
      | some q => upsert res s q
      | none => res)
    []

/-- The names bound at module level of src/portfolio_analyzer.py by its
block of imports (a plain `import m` statement binds `m`; the statement
`from m import a, b` binds `a, b`; `import urllib.request` binds
`urllib`).  `concurrent` is not among them: the file never imports
`concurrent.futures`. -/
def module_level_names : List String :=
  ["os", "sys", "json", "datetime", "logging", "argparse",
   "defaultdict", "namedtuple", "Counter", "itertools", "functools",
   "List", "Dict", "Tuple", "Optional", "Any", "Path", "re", "math",
   "random", "statistics", "copy", "unittest", "doctest", "time",
   "sqlite3", "csv", "pickle", "hashlib", "secrets", "socket", "ssl",
   "asyncio", "threading", "multiprocessing", "subprocess",
   "configparser", "glob", "shutil", "tempfile", "urllib", "webbrowser",
   "warnings", "logger", "FinancialPortfolioAnalyzer"]

/-- Models `fetch_market_data`.  The per-symbol outcome of `_fetch_from_api`
(a successful parse, or None after any caught exception) is abstracted as
an oracle `api : String → Option Quote`.  The body first evaluates the
name `concurrent` (line 182, `concurrent.futures.ThreadPoolExecutor`);
when that name is unbound the call raises `NameError` before any fetch.
Otherwise every successful per-symbol result is stored into the results
dict and the batch is written to the `market_data` table. -/
def fetch_market_data (api : String → Option Quote)
    (db : List (String × Quote)) (symbols : List String) :
    Except String (List (String × Quote) × List (String × Quote)) :=
  if module_level_names.contains ("concurrent") then
    let results := symbols.foldl
      (fun acc s =>
        match api s with
        | some q => upsert acc s q
        | none => acc)
      []
    Except.ok (results, update_market_data db results)
  else
    Except.error ("NameError: name concurrent is not defined")

/-- Models `current_data.get(price, 0)` after `market_data.get(symbol, ...)`:
the cached price of a symbol, or 0 when the symbol has no cached quote. -/
def priceOr0 (md : List (String × Quote)) (s : String) : ℚ :=
  match dictGet md s with
  | some q => q.price
  | none => 0

/-- The per-lot body of the valuation loop of `get_portfolio`
(lines 316 to 334). -/
def valueHolding (md : List (String × Quote)) (h : Holding) : HoldingView :=
  let current_price := priceOr0 md h.symbol
  let current_value := h.quantity * current_price
  let cost_basis := h.quantity * h.purchase_price
  let gain := current_value - cost_basis
  let gain_percent := if 0 < cost_basis then gain / cost_basis * 100 else 0
  ⟨h.symbol, h.quantity, h.purchase_price, h.purchase_date,
   current_price, current_value, cost_basis, gain, gain_percent⟩

/-- The lots of one portfolio, in table order
(`SELECT ... FROM holdings WHERE portfolio_id = ?`). -/
def lots_of (db : Database) (portfolio_id : ℕ) : List Holding :=
  (db.holdings.filter (fun p => p.1 == portfolio_id)).map Prod.snd

/-- Models `get_portfolio`: an unknown id yields the empty dict (`none` here);
otherwise each lot is valued against the quotes cached for the lots
own symbols and the totals are accumulated by the loop. -/
def get_portfolio (db : Database) (portfolio_id : ℕ) : Option PortfolioView :=
  match db.portfolios.find? (fun r => r.id == portfolio_id) with
  | none => none
  | some row =>
    let hs := lots_of db portfolio_id
    let symbols := hs.map Holding.symbol
    let md := get_cached_market_data db.market_data symbols
    let views := hs.map (valueHolding md)
    let total_value := views.foldl (fun acc v => acc + v.current_value) (0 : ℚ)
    let total_cost := views.foldl (fun acc v => acc + v.cost_basis) (0 : ℚ)
    let total_gain := total_value - total_cost
    let total_gain_percent := if 0 < total_cost then total_gain / total_cost * 100 else 0
    some ⟨row.id, row.user_id, row.name, views,
          total_value, total_cost, total_gain, total_gain_percent⟩

/-- The hardcoded symbol-to-sector table of `calculate_portfolio_metrics`. -/
def sectors : List (String × String) :=
  [("AAPL", "Technology"), ("MSFT", "Technology"), ("GOOGL", "Technology"),
   ("AMZN", "Consumer Cyclical"), ("TSLA", "Automotive"), ("JPM", "Financial"),
   ("JNJ", "Healthcare"), ("XOM", "Energy"), ("WMT", "Consumer Defensive"),
   ("V", "Financial"), ("PG", "Consumer Defensive"), ("DIS", "Communication Services")]

/-- Models `sectors.get(symbol, Other)`. -/
def sectorOf (s : String) : String :=
  match dictGet sectors s with
  | some sec => sec
  | none => "Other"

/-- The sector-allocation dict, seen as a mapping from a sector name to the
summed `current_value` of the holdings in that sector (a `defaultdict`
miss and a `.get(sec, 0)` miss both read as 0, i.e. an empty sum). -/
def sector_allocation (hs : List HoldingView) (sec : String) : ℚ :=
  ((hs.filter (fun h => sectorOf h.symbol = sec)).map HoldingView.current_value).sum

/-- The return sample of `calculate_portfolio_metrics`:
`[h[gain_percent] / 100 for h in holdings if h[gain_percent] != 0]`. -/
def returns_of (p : PortfolioView) : List ℚ :=
  (p.holdings.filter (fun h => h.gain_percent ≠ 0)).map (fun h => h.gain_percent / 100)

/-- Models `statistics.mean`. -/
def mean (xs : List ℚ) : ℚ := xs.sum / xs.length

/-- The sample variance (denominator n - 1) underlying `statistics.stdev`. -/
def sampleVariance (xs : List ℚ) : ℚ :=
  ((xs.map (fun x => (x - mean xs) ^ 2)).sum) / ((xs.length : ℚ) - 1)

/-- Models `statistics.stdev`: square root of the sample variance. -/
noncomputable def stdev (xs : List ℚ) : ℝ :=
  Real.sqrt ((sampleVariance xs : ℚ) : ℝ)

/-- Models `statistics.stdev(returns) if len(returns) > 1 else 0`. -/
noncomputable def volatility_of (xs : List ℚ) : ℝ :=
  if 1 < xs.length then stdev xs else 0

/-- Models `avg_return / volatility if volatility > 0 else 0`. -/
noncomputable def sharpe_of (xs : List ℚ) : ℝ :=
  if 0 < volatility_of xs then ((mean xs : ℚ) : ℝ) / volatility_of xs else 0

/-- Models `tech_weight` of `calculate_portfolio_metrics` (guarded by
`total_value > 0`) followed by the two-threshold classifier. -/
def risk_level_of (p : PortfolioView) : String :=
  let tech_weight : ℚ :=
    if 0 < p.total_value then sector_allocation p.holdings ("Technology") / p.total_value else 0
  if tech_weight > 0.4 then ("High")
  else if tech_weight > 0.2 then ("Medium")
  else ("Low")

/-- The metrics dict: an `Option` field is `none` exactly when the
corresponding key is absent from the returned dict (the `if returns:`
block was skipped). -/
structure Metrics where
  avg_return : Option ℚ
  volatility : Option ℝ
  sharpe_ratio : Option ℝ
  sector_allocation : String → ℚ
  risk_level : String

/-- Models `calculate_portfolio_metrics`: empty dict for a portfolio with no
holdings; the three return statistics are present only when the return
sample is non-empty; sector allocation and risk level are always set. -/
noncomputable def calculate_portfolio_metrics (p : PortfolioView) : Option Metrics :=
  if p.holdings = [] then none
  else some
    ⟨if returns_of p = [] then none else some (mean (returns_of p)),
     if returns_of p = [] then none else some (volatility_of (returns_of p)),
     if returns_of p = [] then none else some (sharpe_of (returns_of p)),
     sector_allocation p.holdings,
     risk_level_of p⟩

/-- A target allocation of the static risk-profile table. -/
structure RiskProfile where
  stocks : ℚ
  bonds : ℚ
  cash : ℚ
  description : String
deriving Repr, DecidableEq

/-- The default risk-profile reference table written by
`_load_risk_profiles`. -/
def risk_profiles : List (String × RiskProfile) :=
  [("conservative", ⟨40, 50, 10, "Low risk, income-focused portfolio"⟩),
   ("moderate", ⟨60, 35, 5, "Balanced growth and income portfolio"⟩),
   ("aggressive", ⟨80, 15, 5, "High growth potential with higher risk"⟩)]

/-- One recommendation record as appended by `generate_recommendations`. -/
structure Recommendation where
  type : String
  message : String
  priority : String
deriving Repr, DecidableEq

/-- The record appended on Technology overweight. -/
def recRebalance : Recommendation :=
  ⟨"Rebalance",
   "Technology sector overweight. Consider diversifying into other sectors.",
   "High"⟩

/-- The record appended for a conservative profile light on bonds. -/
def recDiversification : Recommendation :=
  ⟨"Diversification",
   "Consider adding bond ETFs for stability and income.",
   "Medium"⟩

/-- Models `generate_recommendations` (lines 387 to 414).  Modelled from the spec:
src/portfolio_analyzer.py is cut off at line 414, right after the second
append; the final return of the accumulated `recommendations` list is
taken from the spec contract `getRecommendations(snapshot, riskProfile) ->
ordered sequence of Recommendation` (the caller in src/app.py iterates the
returned list).  Everything before that return is translated from the
source lines 387 to 414. -/
noncomputable def generate_recommendations (p : PortfolioView) (risk_profile : String) :
    List Recommendation :=
  let _target := (dictGet risk_profiles risk_profile).getD
    ⟨60, 35, 5, "Balanced growth and income portfolio"⟩
  if p.total_value = 0 then []
  else
    let sa : String → ℚ :=
      match calculate_portfolio_metrics p with
      | some m => m.sector_allocation
      | none => fun _ => 0
    (if sa ("Technology") / p.total_value > 0.4 then [recRebalance] else []) ++
    (if risk_profile = "conservative" ∧ sa ("Bonds") / p.total_value < 0.4
     then [recDiversification] else [])

/-- A store keeps at most one entry per symbol. -/
def NodupKeys {α : Type} (l : List (String × α)) : Prop :=
  (l.map Prod.fst).Nodup

/-- A quote carrying only a price (the other fields are irrelevant to
valuation). -/
def quoteOf (s : String) (price : ℚ) : Quote := ⟨s, price, 0, "0%", 0, ""⟩

/-- Scenario state: one lot [AAPL, qty=10, price=100], cached quote
AAPL priced 150. -/
def dbC1 : Database :=
  ⟨[⟨1, 1, "Growth"⟩],
   [(1, ⟨"AAPL", 10, 100, "2024-01-01"⟩)],
   [("AAPL", quoteOf ("AAPL") 150)]⟩

/-- Scenario state: two lots of AAPL (qty=5 at 100 and qty=5 at 120),
cached quote AAPL priced 110. -/
def dbC3 : Database :=
  ⟨[⟨1, 1, "Two"⟩],
   [(1, ⟨"AAPL", 5, 100, "2024-01-01"⟩), (1, ⟨"AAPL", 5, 120, "2024-02-01"⟩)],
   [("AAPL", quoteOf ("AAPL") 110)]⟩

/-- A database holding portfolio 7 with zero lots. -/
def dbEmptyLots : Database := ⟨[⟨7, 1, "Empty"⟩], [], []⟩

/-- The snapshot of an existing portfolio with zero lots. -/
def pvEmpty : PortfolioView := ⟨7, 1, "Empty", [], 0, 0, 0, 0⟩

/-- A valued lot: AAPL, 10 shares bought at 100, now priced 150. -/
def hvTech : HoldingView :=
  ⟨"AAPL", 10, 100, "2024-01-01", 150, 1500, 1000, 500, 50⟩

/-- A one-holding snapshot fully concentrated in Technology. -/
def pvTech : PortfolioView := ⟨1, 1, "Tech", [hvTech], 1500, 1000, 500, 50⟩

/-- The metrics of `pvTech`: a single return of 0.5, so volatility 0. -/
noncomputable def mTech : Metrics :=
  ⟨some (1 / 2), some 0, some 0, sector_allocation [hvTech], "High"⟩

/-- State reaching a snapshot with negative total value: two lots of
quantity 1 bought at 0, each priced -1 in the cache. -/
def dbNeg : Database :=
  ⟨[⟨1, 1, "Neg"⟩],
   [(1, ⟨"AAPL", 1, 0, "2024-01-01"⟩), (1, ⟨"XOM", 1, 0, "2024-01-01"⟩)],
   [("AAPL", quoteOf ("AAPL") (-1)), ("XOM", quoteOf ("XOM") (-1))]⟩

/-- The AAPL line of `dbNeg`: value -1, cost basis 0, gain_percent 0. -/
def hvNegA : HoldingView := ⟨"AAPL", 1, 0, "2024-01-01", -1, -1, 0, -1, 0⟩

/-- The XOM line of `dbNeg`. -/
def hvNegX : HoldingView := ⟨"XOM", 1, 0, "2024-01-01", -1, -1, 0, -1, 0⟩

/-- The snapshot of `dbNeg`: total_value -2, Technology allocation -1. -/
def pvNeg : PortfolioView := ⟨1, 1, "Neg", [hvNegA, hvNegX], -2, 0, -2, 0⟩

/-- The metrics of `pvNeg` (empty return sample, risk Low). -/
noncomputable def mNeg : Metrics :=
  ⟨none, none, none, sector_allocation [hvNegA, hvNegX], "Low"⟩

/-- State with one cached lot (AAPL at 150) and one uncached lot (MSFT). -/
def dbMix : Database :=
  ⟨[⟨1, 1, "Mix"⟩],
   [(1, ⟨"AAPL", 10, 100, "2024-01-01"⟩), (1, ⟨"MSFT", 10, 100, "2024-01-01"⟩)],
   [("AAPL", quoteOf ("AAPL") 150)]⟩

/-- The uncached MSFT line of `dbMix`: priced 0, gain_percent -100. -/
def hvMixM : HoldingView := ⟨"MSFT", 10, 100, "2024-01-01", 0, 0, 1000, -1000, -100⟩

/-- The snapshot of `dbMix`. -/
def pvMix : PortfolioView := ⟨1, 1, "Mix", [hvTech, hvMixM], 1500, 2000, -500, -25⟩

/-- A snapshot whose single holding has gain_percent exactly 0
(cost basis 0). -/
def pvZero : PortfolioView :=
  ⟨1, 1, "Zero", [⟨"AAPL", 10, 0, "2024-01-01", 150, 1500, 0, 1500, 0⟩], 1500, 0, 1500, 0⟩

/-- The snapshot of `dbC1`. -/
def pvC1 : PortfolioView := ⟨1, 1, "Growth", [hvTech], 1500, 1000, 500, 50⟩

/-- First line of the `dbC3` snapshot: 5 shares at 100, priced 110. -/
def hvC3a : HoldingView := ⟨"AAPL", 5, 100, "2024-01-01", 110, 550, 500, 50, 10⟩

/-- Second line of the `dbC3` snapshot: 5 shares at 120, priced 110. -/
def hvC3b : HoldingView := ⟨"AAPL", 5, 120, "2024-02-01", 110, 550, 600, -50, -25/3⟩

/-- The snapshot of `dbC3`: two AAPL line items, not one netted position. -/
def pvC3 : PortfolioView := ⟨1, 1, "Two", [hvC3a, hvC3b], 1100, 1100, 0, 0⟩

/-- A one-entry cache state. -/
def dbCacheW : List (String × Quote) := [("AAPL", quoteOf ("AAPL") 150)]

/-- A two-symbol refresh batch overwriting AAPL and adding MSFT. -/
def batchW : List (String × Quote) :=
  [("AAPL", quoteOf ("AAPL") 160), ("MSFT", quoteOf ("MSFT") 300)]

theorem dictGet_append {α : Type} (l₁ l₂ : List (String × α)) (s : String) :
    dictGet (l₁ ++ l₂) s =
      match dictGet l₁ s with
      | some v => some v
      | none => dictGet l₂ s := by
  induction l₁ with
  | nil => simp [dictGet]
  | cons p rest ih =>
    obtain ⟨k, v⟩ := p
    by_cases h : k = s <;> simp [dictGet, h, ih]

theorem dictGet_erase {α : Type} (l : List (String × α)) (t s : String) :
    dictGet (dictErase l t) s = if s = t then none else dictGet l s := by
  induction l with
  | nil => simp [dictGet, dictErase]
  | cons p rest ih =>
    obtain ⟨k, v⟩ := p
    by_cases hkt : k = t
    · have hdrop : dictErase ((k, v) :: rest) t = dictErase rest t := by
        simp [dictErase, List.filter_cons, hkt]
      rw [hdrop, ih]
      by_cases hst : s = t
      · simp [hst]
      · subst hkt
        have h2 : ¬k = s := fun h => hst h.symm
        simp [dictGet, hst, h2]
    · have hkeep : dictErase ((k, v) :: rest) t = (k, v) :: dictErase rest t := by
        simp [dictErase, List.filter_cons, hkt]
      rw [hkeep]
      by_cases hks : k = s
      · subst hks
        simp [dictGet, hkt]
      · simp [dictGet, hks, ih]

theorem dictGet_upsert {α : Type} (l : List (String × α)) (t s : String) (v : α) :
    dictGet (upsert l t v) s = if s = t then some v else dictGet l s := by
  by_cases h : s = t
  · subst h
    simp [upsert, dictGet_append, dictGet_erase, dictGet]
  · have h2 : ¬t = s := fun ht => h ht.symm
    cases hls : dictGet l s <;>
      simp [upsert, dictGet_append, dictGet_erase, dictGet, h, h2, hls]

theorem dictGet_update (db batch : List (String × Quote)) (s : String) :
    dictGet (update_market_data db batch) s =
      match dictGet batch.reverse s with
      | some q => some q
      | none => dictGet db s := by
  induction batch generalizing db with
  | nil => simp [update_market_data, dictGet]
  | cons p rest ih =>
    obtain ⟨k, v⟩ := p
    have hstep : update_market_data db ((k, v) :: rest)
        = update_market_data (upsert db k v) rest := by
      simp [update_market_data]
    rw [hstep, ih, List.reverse_cons, dictGet_append]
    cases hr : dictGet rest.reverse s with
    | some q => simp
    | none =>
      by_cases h : s = k
      · subst h
        simp [dictGet, dictGet_upsert]
      · have h2 : ¬k = s := fun hk => h hk.symm
        simp [dictGet, dictGet_upsert, h, h2]

theorem nodupKeys_upsert {α : Type} (l : List (String × α)) (s : String) (v : α)
    (h : NodupKeys l) : NodupKeys (upsert l s v) := by
  unfold NodupKeys upsert at *
  rw [List.map_append]
  refine List.Nodup.append ?_ (by simp) ?_
  · exact h.sublist ((l.filter_sublist).map Prod.fst)
  · intro x hx hxs
    simp only [List.map_cons, List.map_nil, List.mem_singleton] at hxs
    subst hxs
    obtain ⟨p, hp, hps⟩ := List.mem_map.mp hx
    have := List.of_mem_filter hp
    simp only [decide_eq_true_eq] at this
    exact this (by rw [hps])

theorem nodupKeys_update (db batch : List (String × Quote)) (h : NodupKeys db) :
    NodupKeys (update_market_data db batch) := by
  induction batch generalizing db with
  | nil => exact h
  | cons p rest ih =>
    have hstep : update_market_data db (p :: rest)
        = update_market_data (upsert db p.1 p.2) rest := by
      simp [update_market_data]
    rw [hstep]
    exact ih _ (nodupKeys_upsert db p.1 p.2 h)

theorem get_cached_foldl (db : List (String × Quote)) (syms : List String)
    (acc : List (String × Quote)) (t : String) :
    dictGet
      (syms.foldl
        (fun res s =>
          match dictGet db s with
          | some q => upsert res s q
          | none => res)
        acc) t =
      match dictGet db t with
      | some q => if t ∈ syms then some q else dictGet acc t
      | none => dictGet acc t := by
  induction syms generalizing acc with
  | nil => cases h : dictGet db t <;> simp [h]
  | cons s rest ih =>
    simp only [List.foldl_cons]
    rw [ih]
    by_cases hts : t = s
    · subst hts
      cases h : dictGet db t <;> simp [h, dictGet_upsert]
    · cases h : dictGet db t <;> cases h2 : dictGet db s <;>
        simp [h, h2, dictGet_upsert, hts, List.mem_cons]

theorem dictGet_get_cached (db : List (String × Quote)) (syms : List String)
    (t : String) :
    dictGet (get_cached_market_data db syms) t =
      if t ∈ syms then dictGet db t else none := by
  unfold get_cached_market_data
  rw [get_cached_foldl]
  cases h : dictGet db t <;> simp [h, dictGet]

theorem mem_get_cached_foldl (db : List (String × Quote)) (syms : List String) :
    ∀ (acc : List (String × Quote)) (p : String × Quote),
      p ∈ syms.foldl
        (fun res s =>
          match dictGet db s with
          | some q => upsert res s q
          | none => res)
        acc →
      p ∈ acc ∨ (p.1 ∈ syms ∧ dictGet db p.1 = some p.2) := by
  induction syms with
  | nil => simp
  | cons s rest ih =>
    intro acc p hp
    simp only [List.foldl_cons] at hp
    cases hdb : dictGet db s with
    | none =>
      rw [hdb] at hp
      rcases ih acc p hp with h | h
      · exact Or.inl h
      · exact Or.inr ⟨List.mem_cons_of_mem _ h.1, h.2⟩
    | some q =>
      rw [hdb] at hp
      rcases ih _ p hp with h | h
      · simp only [upsert, List.mem_append, List.mem_singleton] at h
        rcases h with h | h
        · exact Or.inl (List.mem_of_mem_filter h)
        · subst h
          exact Or.inr ⟨List.mem_cons_self _ _, hdb⟩
      · exact Or.inr ⟨List.mem_cons_of_mem _ h.1, h.2⟩

theorem mem_get_cached (db : List (String × Quote)) (syms : List String)
    (p : String × Quote) (hp : p ∈ get_cached_market_data db syms) :
    p.1 ∈ syms ∧ dictGet db p.1 = some p.2 := by
  rcases mem_get_cached_foldl db syms [] p hp with h | h
  · simp at h
  · exact h

theorem foldl_add_eq_sum {α : Type} (f : α → ℚ) (l : List α) (a : ℚ) :
    l.foldl (fun acc v => acc + f v) a = a + (l.map f).sum := by
  induction l generalizing a with
  | nil => simp
  | cons x xs ih => simp [ih, add_assoc]

/-- Destructuring of a successful `get_portfolio` call. -/
theorem get_portfolio_eq_some {db : Database} {pid : ℕ} {pv : PortfolioView}
    (h : get_portfolio db pid = some pv) :
    pv.holdings = (lots_of db pid).map
        (valueHolding (get_cached_market_data db.market_data
          ((lots_of db pid).map Holding.symbol)))
    ∧ pv.total_value = (pv.holdings.map HoldingView.current_value).sum
    ∧ pv.total_cost = (pv.holdings.map HoldingView.cost_basis).sum
    ∧ pv.total_gain = pv.total_value - pv.total_cost
    ∧ pv.total_gain_percent =
        (if 0 < pv.total_cost then pv.total_gain / pv.total_cost * 100 else 0) := by
  unfold get_portfolio at h
  cases hf : db.portfolios.find? (fun r => r.id == pid) with
  | none => rw [hf] at h; exact absurd h (by simp)
  | some row =>
    rw [hf] at h
    simp only [Option.some.injEq] at h
    subst h
    refine ⟨rfl, ?_, ?_, ?_, ?_⟩ <;>
      simp [foldl_add_eq_sum]

/-- Destructuring of a successful `calculate_portfolio_metrics` call. -/
theorem metrics_eq_some {p : PortfolioView} {m : Metrics}
    (h : calculate_portfolio_metrics p = some m) :
    p.holdings ≠ []
    ∧ m.avg_return = (if returns_of p = [] then none else some (mean (returns_of p)))
    ∧ m.volatility = (if returns_of p = [] then none else some (volatility_of (returns_of p)))
    ∧ m.sharpe_ratio = (if returns_of p = [] then none else some (sharpe_of (returns_of p)))
    ∧ m.sector_allocation = sector_allocation p.holdings
    ∧ m.risk_level = risk_level_of p := by
  unfold calculate_portfolio_metrics at h
  by_cases hp : p.holdings = []
  · simp [hp] at h
  · rw [if_neg hp] at h
    simp only [Option.some.injEq] at h
    subst h
    exact ⟨hp, rfl, rfl, rfl, rfl, rfl⟩

/-- For a non-empty portfolio the metrics dict exists. -/
theorem metrics_isSome {p : PortfolioView} (hp : p.holdings ≠ []) :
    calculate_portfolio_metrics p =
      some ⟨if returns_of p = [] then none else some (mean (returns_of p)),
            if returns_of p = [] then none else some (volatility_of (returns_of p)),
            if returns_of p = [] then none else some (sharpe_of (returns_of p)),
            sector_allocation p.holdings,
            risk_level_of p⟩ := by
  unfold calculate_portfolio_metrics
  rw [if_neg hp]

theorem gp_dbC1 : get_portfolio dbC1 1 = some pvC1 := by
  norm_num [get_portfolio, lots_of, get_cached_market_data, dictGet, upsert, dictErase,
    valueHolding, priceOr0, dbC1, pvC1, hvTech, quoteOf, List.find?, List.filter]

theorem gp_dbC3 : get_portfolio dbC3 1 = some pvC3 := by
  norm_num [get_portfolio, lots_of, get_cached_market_data, dictGet, upsert, dictErase,
    valueHolding, priceOr0, dbC3, pvC3, hvC3a, hvC3b, quoteOf, List.find?, List.filter]

theorem gp_dbEmptyLots : get_portfolio dbEmptyLots 7 = some pvEmpty := by
  norm_num [get_portfolio, lots_of, get_cached_market_data, dictGet, upsert, dictErase,
    valueHolding, priceOr0, dbEmptyLots, pvEmpty, List.find?, List.filter]

theorem gp_dbNeg : get_portfolio dbNeg 1 = some pvNeg := by
  simp [get_portfolio, lots_of, get_cached_market_data, dictGet, upsert, dictErase,
    valueHolding, priceOr0, dbNeg, pvNeg, hvNegA, hvNegX, quoteOf, List.find?, List.filter]
  norm_num

theorem gp_dbMix : get_portfolio dbMix 1 = some pvMix := by
  simp [get_portfolio, lots_of, get_cached_market_data, dictGet, upsert, dictErase,
    valueHolding, priceOr0, dbMix, pvMix, hvTech, hvMixM, quoteOf, List.find?, List.filter]
  norm_num

theorem metrics_pvTech : calculate_portfolio_metrics pvTech = some mTech := by
  unfold calculate_portfolio_metrics
  rw [if_neg (by simp [pvTech] : ¬pvTech.holdings = [])]
  have h1 : returns_of pvTech = [1 / 2] := by
    simp [returns_of, pvTech, hvTech, List.filter_cons]
    norm_num
  rw [h1]
  simp [mTech, mean, volatility_of, sharpe_of, risk_level_of, pvTech,
    sector_allocation, sectorOf, dictGet, sectors, hvTech, List.filter_cons]
  norm_num

theorem metrics_pvNeg : calculate_portfolio_metrics pvNeg = some mNeg := by
  unfold calculate_portfolio_metrics
  rw [if_neg (by simp [pvNeg] : ¬pvNeg.holdings = [])]
  have h1 : returns_of pvNeg = [] := by
    simp [returns_of, pvNeg, hvNegA, hvNegX, List.filter_cons]
  rw [h1]
  simp [mNeg, risk_level_of, pvNeg, sector_allocation, sectorOf, dictGet,
    sectors, hvNegA, hvNegX, List.filter_cons]
  norm_num

/-- C9: the Price Cache Store keeps at most one live Quote per symbol:
`put` (one INSERT OR REPLACE per symbol) is an upsert with last-write-wins
semantics — after a batch, a symbol maps to its last quote in the batch,
any symbol not in the batch keeps its previous binding, and key uniqueness
is preserved — and `get` returns entries only for requested symbols that
are actually cached, never synthesizing an entry. -/
theorem claim_C9 :
    (∀ (db batch : List (String × Quote)) (s : String),
        dictGet (update_market_data db batch) s =
          match dictGet batch.reverse s with
          | some q => some q
          | none => dictGet db s)
    ∧ (∀ (db batch : List (String × Quote)),
        NodupKeys db → NodupKeys (update_market_data db batch))
    ∧ (∀ (db : List (String × Quote)) (syms : List String) (p : String × Quote),
        p ∈ get_cached_market_data db syms →
          p.1 ∈ syms ∧ dictGet db p.1 = some p.2) :=
  ⟨dictGet_update, nodupKeys_update, mem_get_cached⟩

/-- C9 witness: refreshing AAPL and adding MSFT over a one-entry cache. -/
theorem claim_C9_witness :
    dictGet (update_market_data dbCacheW batchW) ("AAPL") = some (quoteOf ("AAPL") 160)
    ∧ dictGet (update_market_data dbCacheW batchW) ("MSFT") = some (quoteOf ("MSFT") 300)
    ∧ NodupKeys (update_market_data dbCacheW batchW)
    ∧ ("AAPL" ∈ ["AAPL"] ∧ dictGet dbCacheW ("AAPL") = some (quoteOf ("AAPL") 150)) := by
  refine ⟨?_, ?_, claim_C9.2.1 dbCacheW batchW ?_,
    claim_C9.2.2 dbCacheW ["AAPL"] ("AAPL", quoteOf ("AAPL") 150) ?_⟩
  · rw [claim_C9.1 dbCacheW batchW ("AAPL")]
    simp [batchW, dictGet]
  · rw [claim_C9.1 dbCacheW batchW ("MSFT")]
    simp [batchW, dictGet]
  · simp [NodupKeys, dbCacheW]
  · simp [get_cached_market_data, dbCacheW, dictGet, upsert, dictErase]

/-- C4: the claim describes the intended failure isolation, but
src/portfolio_analyzer.py line 182 references `concurrent.futures` while
`concurrent` is never imported (the import block, lines 1 to 39, lacks
`import concurrent.futures`), so every call of `fetch_market_data` raises
`NameError` before any symbol is fetched: the whole batch aborts, nothing
is returned and nothing is written to the cache. -/
theorem claim_C4 :
    module_level_names.contains ("concurrent") = false
    ∧ ∀ (api : String → Option Quote) (db : List (String × Quote))
        (symbols : List String),
        fetch_market_data api db symbols =
          Except.error ("NameError: name concurrent is not defined") := by
  constructor
  · simp [module_level_names]
  · intro api db symbols
    simp [fetch_market_data, module_level_names]

/-- C8: `get_portfolio` returns the empty dict exactly for an unknown
portfolio id, and for a known id it returns a snapshot whose holdings are
empty exactly when the portfolio has no lots, in which case all totals are
zero; no input is fatal (the function is total). -/
theorem claim_C8 (db : Database) (pid : ℕ) :
    (get_portfolio db pid = none ↔ ∀ row ∈ db.portfolios, row.id ≠ pid)
    ∧ (∀ pv : PortfolioView, get_portfolio db pid = some pv →
        ((pv.holdings = [] ↔ lots_of db pid = [])
         ∧ (pv.holdings = [] →
             pv.total_value = 0 ∧ pv.total_cost = 0 ∧ pv.total_gain = 0
             ∧ pv.total_gain_percent = 0))) := by
  constructor
  · constructor
    · intro h row hrow hid
      unfold get_portfolio at h
      cases hf : db.portfolios.find? (fun r => r.id == pid) with
      | none =>
        have := List.find?_eq_none.mp hf row hrow
        simp [hid] at this
      | some r =>
        rw [hf] at h
        simp at h
    · intro hall
      unfold get_portfolio
      have hf : db.portfolios.find? (fun r => r.id == pid) = none := by
        apply List.find?_eq_none.mpr
        intro x hx
        simp [hall x hx]
      rw [hf]
  · intro pv h
    obtain ⟨hh, htv, htc, htg, htgp⟩ := get_portfolio_eq_some h
    constructor
    · rw [hh]
      exact List.map_eq_nil_iff
    · intro he
      rw [he] at htv htc
      simp only [List.map_nil, List.sum_nil] at htv htc
      refine ⟨htv, htc, ?_, ?_⟩
      · rw [htg, htv, htc, sub_zero]
      · rw [htgp, htc, if_neg (lt_irrefl 0)]

/-- C8 witness: id 99 is unknown to `dbEmptyLots`; portfolio 7 exists with
zero lots and an all-zero snapshot. -/
theorem claim_C8_witness :
    get_portfolio dbEmptyLots 99 = none
    ∧ pvEmpty.total_value = 0 ∧ pvEmpty.total_gain_percent = 0 := by
  refine ⟨(claim_C8 dbEmptyLots 99).1.mpr ?_, ?_, ?_⟩
  · intro row hrow
    simp only [dbEmptyLots, List.mem_singleton] at hrow
    subst hrow
    decide
  · exact (((claim_C8 dbEmptyLots 7).2 pvEmpty gp_dbEmptyLots).2 rfl).1
  · exact (((claim_C8 dbEmptyLots 7).2 pvEmpty gp_dbEmptyLots).2 rfl).2.2.2

/-- C1: every lot of a valued portfolio contributes one line item with
current_value = quantity times the cached price of its symbol (0 when the
symbol is uncached — the lot is included, not excluded), cost_basis =
quantity times purchase_price, gain = current_value - cost_basis; the
scenario [AAPL, qty=10, price=100] with cached quote AAPL at 150 yields
current_value 1500, cost_basis 1000, gain 500, gain_percent 50. -/
theorem claim_C1 :
    (∀ (db : Database) (pid : ℕ) (pv : PortfolioView),
        get_portfolio db pid = some pv →
          pv.holdings.length = (lots_of db pid).length
          ∧ ∀ (i : ℕ) (lot : Holding) (hv : HoldingView),
              (lots_of db pid)[i]? = some lot → pv.holdings[i]? = some hv →
                hv.cost_basis = lot.quantity * lot.purchase_price
                ∧ hv.gain = hv.current_value - hv.cost_basis
                ∧ (∀ q : Quote, dictGet db.market_data lot.symbol = some q →
                    hv.current_price = q.price
                    ∧ hv.current_value = lot.quantity * q.price)
                ∧ (dictGet db.market_data lot.symbol = none →
                    hv.current_price = 0 ∧ hv.current_value = 0))
    ∧ (get_portfolio dbC1 1).map
        (fun pv => (pv.holdings.map fun h =>
            (h.current_value, h.cost_basis, h.gain, h.gain_percent),
          pv.total_value, pv.total_gain_percent))
        = some ([(1500, 1000, 500, 50)], 1500, 50) := by
  constructor
  · intro db pid pv h
    obtain ⟨hh, -, -, -, -⟩ := get_portfolio_eq_some h
    constructor
    · rw [hh, List.length_map]
    · intro i lot hv hlot hhv
      rw [hh, List.getElem?_map, hlot] at hhv
      simp only [Option.map_some'] at hhv
      have hmem : lot ∈ lots_of db pid := by
        obtain ⟨hlt, heq⟩ := List.getElem?_eq_some.mp hlot
        exact heq ▸ List.getElem_mem hlt
      have hsym : lot.symbol ∈ (lots_of db pid).map Holding.symbol :=
        List.mem_map_of_mem Holding.symbol hmem
      have hcache : dictGet (get_cached_market_data db.market_data
          ((lots_of db pid).map Holding.symbol)) lot.symbol
          = dictGet db.market_data lot.symbol := by
        rw [dictGet_get_cached]
        exact if_pos hsym
      obtain rfl := Option.some.inj hhv
      refine ⟨rfl, rfl, ?_, ?_⟩
      · intro q hq
        constructor <;> simp [valueHolding, priceOr0, hcache, hq]
      · intro hq
        constructor <;> simp [valueHolding, priceOr0, hcache, hq]
  · rw [gp_dbC1]
    norm_num [pvC1, hvTech]

/-- C1 witness: the scenario state `dbC1` instantiates the universal part:
its single lot is priced from the cached quote. -/
theorem claim_C1_witness :
    pvC1.holdings.length = (lots_of dbC1 1).length
    ∧ hvTech.cost_basis = 10 * 100
    ∧ hvTech.current_value = 10 * (quoteOf ("AAPL") 150).price := by
  have h := (claim_C1.1 dbC1 1 pvC1 gp_dbC1)
  have h2 := h.2 0 ⟨"AAPL", 10, 100, "2024-01-01"⟩ hvTech
    (by simp [lots_of, dbC1]) (by simp [pvC1])
  refine ⟨h.1, ?_, ?_⟩
  · rw [h2.1]
  · exact (h2.2.2.1 (quoteOf ("AAPL") 150) (by simp [dbC1, dictGet])).2

/-- C2: per lot, gain_percent is gain / cost_basis * 100 when
cost_basis > 0 and 0 when cost_basis = 0, and at portfolio level
total_gain_percent is total_gain / total_cost * 100 when total_cost > 0
and 0 when total_cost = 0: the division branch is guarded and unreachable
for a zero denominator. -/
theorem claim_C2 (db : Database) (pid : ℕ) (pv : PortfolioView)
    (h : get_portfolio db pid = some pv) :
    (∀ hv ∈ pv.holdings,
        (0 < hv.cost_basis → hv.gain_percent = hv.gain / hv.cost_basis * 100)
        ∧ (hv.cost_basis = 0 → hv.gain_percent = 0))
    ∧ (0 < pv.total_cost → pv.total_gain_percent = pv.total_gain / pv.total_cost * 100)
    ∧ (pv.total_cost = 0 → pv.total_gain_percent = 0) := by
  obtain ⟨hh, -, -, -, htgp⟩ := get_portfolio_eq_some h
  refine ⟨?_, ?_, ?_⟩
  · intro hv hmem
    rw [hh] at hmem
    obtain ⟨lot, -, rfl⟩ := List.mem_map.mp hmem
    constructor
    · intro hpos
      simp only [valueHolding] at hpos ⊢
      rw [if_pos hpos]
    · intro hz
      simp only [valueHolding] at hz ⊢
      rw [if_neg (by rw [hz]; exact lt_irrefl 0)]
  · intro hpos
    rw [htgp, if_pos hpos]
  · intro hz
    rw [htgp, if_neg (by rw [hz]; exact lt_irrefl 0)]

/-- C2 witness: the `dbC1` lot has cost basis 1000 > 0 and takes the
division branch; the empty portfolio has total cost 0 and total gain
percent 0. -/
theorem claim_C2_witness :
    hvTech.gain_percent = hvTech.gain / hvTech.cost_basis * 100
    ∧ pvEmpty.total_gain_percent = 0 := by
  constructor
  · exact (((claim_C2 dbC1 1 pvC1 gp_dbC1).1 hvTech (by simp [pvC1])).1
      (by norm_num [hvTech]))
  · exact (claim_C2 dbEmptyLots 7 pvEmpty gp_dbEmptyLots).2.2 rfl

/-- C3: snapshot totals are the sums of the per-lot figures
(total_value of current_value, total_cost of cost_basis,
total_gain their difference), and lots of the same symbol are kept as
separate line items: the two-AAPL-lot scenario yields two line items and
totals 1100 / 1100 / 0. -/
theorem claim_C3 :
    (∀ (db : Database) (pid : ℕ) (pv : PortfolioView),
        get_portfolio db pid = some pv →
          pv.total_value = (pv.holdings.map HoldingView.current_value).sum
          ∧ pv.total_cost = (pv.holdings.map HoldingView.cost_basis).sum
          ∧ pv.total_gain = pv.total_value - pv.total_cost)
    ∧ (get_portfolio dbC3 1).map
        (fun pv => (pv.holdings.length, pv.holdings.map HoldingView.symbol,
          pv.total_cost, pv.total_value, pv.total_gain))
        = some (2, ["AAPL", "AAPL"], 1100, 1100, 0) := by
  constructor
  · intro db pid pv h
    obtain ⟨-, htv, htc, htg, -⟩ := get_portfolio_eq_some h
    exact ⟨htv, htc, htg⟩
  · rw [gp_dbC3]
    norm_num [pvC3, hvC3a, hvC3b]

/-- C3 witness: the totals of the two-lot scenario snapshot are the sums
of its line items. -/
theorem claim_C3_witness :
    pvC3.total_value = (pvC3.holdings.map HoldingView.current_value).sum
    ∧ pvC3.total_gain = pvC3.total_value - pvC3.total_cost := by
  have h := claim_C3.1 dbC3 1 pvC3 gp_dbC3
  exact ⟨h.1, h.2.2⟩

/-- C5 counterexample: from cached prices of -1 the engine reaches a
snapshot with total_value = -2 and Technology allocation -1, whose weight
-1 / -2 = 0.5 exceeds 0.4, yet the code classifies it Low (its
`tech_weight` guard treats any non-positive total as weight 0), refuting
the claimed iff for arbitrary sector_allocation/total_value combinations. -/
theorem claim_C5_counterexample :
    get_portfolio dbNeg 1 = some pvNeg
    ∧ calculate_portfolio_metrics pvNeg = some mNeg
    ∧ sector_allocation pvNeg.holdings ("Technology") / pvNeg.total_value > 0.4
    ∧ mNeg.risk_level = "Low"
    ∧ ¬(mNeg.risk_level = "High" ↔
        sector_allocation pvNeg.holdings ("Technology") / pvNeg.total_value > 0.4) := by
  have hsa : sector_allocation pvNeg.holdings ("Technology") = -1 := by
    simp [sector_allocation, sectorOf, dictGet, sectors, pvNeg, hvNegA, hvNegX,
      List.filter_cons]
  have hw : sector_allocation pvNeg.holdings ("Technology") / pvNeg.total_value > 0.4 := by
    rw [hsa]
    norm_num [pvNeg]
  refine ⟨gp_dbNeg, metrics_pvNeg, hw, rfl, ?_⟩
  intro hiff
  have := hiff.mpr hw
  simp [mNeg] at this

/-- C5 (amended): for a snapshot with positive total value, risk_level is
High iff the Technology weight exceeds 0.4, Medium iff it lies in
(0.2, 0.4], and Low iff it is at most 0.2; when total_value is zero or
negative the weight is taken as 0 and the classification is Low, with no
division ever performed on a non-positive denominator. -/
theorem claim_C5 (p : PortfolioView) (m : Metrics)
    (hm : calculate_portfolio_metrics p = some m) :
    (0 < p.total_value →
        ((m.risk_level = "High" ↔
            sector_allocation p.holdings ("Technology") / p.total_value > 0.4)
         ∧ (m.risk_level = "Medium" ↔
            (0.2 < sector_allocation p.holdings ("Technology") / p.total_value
             ∧ sector_allocation p.holdings ("Technology") / p.total_value ≤ 0.4))
         ∧ (m.risk_level = "Low" ↔
            sector_allocation p.holdings ("Technology") / p.total_value ≤ 0.2)))
    ∧ (p.total_value ≤ 0 → m.risk_level = "Low") := by
  obtain ⟨-, -, -, -, -, hrl⟩ := metrics_eq_some hm
  constructor
  · intro htv
    rw [hrl]
    simp only [risk_level_of]
    rw [if_pos htv]
    by_cases h1 : sector_allocation p.holdings ("Technology") / p.total_value > 0.4
    · rw [if_pos h1]
      refine ⟨⟨fun _ => h1, fun _ => rfl⟩, ?_, ?_⟩
      · exact ⟨fun hs => absurd hs (by decide),
          fun hw => absurd h1 (not_lt.mpr hw.2)⟩
      · exact ⟨fun hs => absurd hs (by decide),
          fun hw => absurd h1 (not_lt.mpr (hw.trans (by norm_num)))⟩
    · rw [if_neg h1]
      by_cases h2 : sector_allocation p.holdings ("Technology") / p.total_value > 0.2
      · rw [if_pos h2]
        refine ⟨?_, ?_, ?_⟩
        · exact ⟨fun hs => absurd hs (by decide), fun hw => absurd hw h1⟩
        · exact ⟨fun _ => ⟨h2, not_lt.mp h1⟩, fun _ => rfl⟩
        · exact ⟨fun hs => absurd hs (by decide),
            fun hw => absurd h2 (not_lt.mpr hw)⟩
      · rw [if_neg h2]
        refine ⟨?_, ?_, ?_⟩
        · exact ⟨fun hs => absurd hs (by decide), fun hw => absurd hw h1⟩
        · exact ⟨fun hs => absurd hs (by decide), fun hw => absurd hw.1 h2⟩
        · exact ⟨fun _ => not_lt.mp h2, fun _ => rfl⟩
  · intro htv
    rw [hrl]
    simp only [risk_level_of]
    rw [if_neg (not_lt.mpr htv)]
    norm_num

/-- C5 witness: the all-Technology snapshot `pvTech` has weight 1 and is
classified High. -/
theorem claim_C5_witness : mTech.risk_level = "High" := by
  have hsa : sector_allocation pvTech.holdings ("Technology") = 1500 := by
    simp [sector_allocation, sectorOf, dictGet, sectors, pvTech, hvTech,
      List.filter_cons]
  exact (((claim_C5 pvTech mTech metrics_pvTech).1 (by norm_num [pvTech])).1).mpr
    (by rw [hsa]; norm_num [pvTech])

/-- C6 counterexample: in `dbMix` the MSFT lot has no cached quote, is
valued at price 0 with cost basis 1000, and gets gain_percent -100 — so it
is NOT excluded from the return sample: the sample is [0.5, -1] and
avg_return is -0.25, not the 0.5 the claim predicts when uncached lots are
dropped. -/
theorem claim_C6_counterexample :
    get_portfolio dbMix 1 = some pvMix
    ∧ dictGet dbMix.market_data ("MSFT") = none
    ∧ pvMix.holdings.map HoldingView.gain_percent = [50, -100]
    ∧ returns_of pvMix = [1 / 2, -1]
    ∧ (calculate_portfolio_metrics pvMix).map Metrics.avg_return
        = some (some (-1 / 4))
    ∧ mean [(1 : ℚ) / 2] = 1 / 2
    ∧ (-1 / 4 : ℚ) ≠ 1 / 2 := by
  have hret : returns_of pvMix = [1 / 2, -1] := by
    simp [returns_of, pvMix, hvTech, hvMixM, List.filter_cons]
    norm_num
  refine ⟨gp_dbMix, ?_, ?_, hret, ?_, ?_, by norm_num⟩
  · simp [dbMix, dictGet]
  · simp [pvMix, hvTech, hvMixM]
  · rw [metrics_isSome (by simp [pvMix]), hret]
    simp only [Option.map_some']
    rw [if_neg (by simp : ¬([(1 : ℚ) / 2, -1] = []))]
    norm_num [mean]
  · norm_num [mean]

/-- C6 (amended): when the return sample (the gain_percent/100 of exactly
those holdings whose gain_percent is not exactly zero) is non-empty,
avg_return is its arithmetic mean, and volatility is its sample standard
deviation (the non-negative square root of the sum of squared deviations
over n - 1), taken as 0 when the sample has fewer than two elements;
zero-gain holdings are excluded from the sample, but a holding priced at 0
from an uncached quote is excluded only when its cost basis is 0 — with a
positive cost basis it enters the sample as a -100 percent return. -/
theorem claim_C6 (p : PortfolioView) (m : Metrics)
    (hm : calculate_portfolio_metrics p = some m)
    (rs : List ℚ)
    (hrs : rs = (p.holdings.filter (fun h => h.gain_percent ≠ 0)).map
        (fun h => h.gain_percent / 100))
    (hne : rs ≠ []) :
    m.avg_return = some (rs.sum / (rs.length : ℚ))
    ∧ (2 ≤ rs.length → ∃ v : ℝ, m.volatility = some v ∧ 0 ≤ v
        ∧ v ^ 2 = (((rs.map (fun x => (x - rs.sum / (rs.length : ℚ)) ^ 2)).sum
            / ((rs.length : ℚ) - 1) : ℚ) : ℝ))
    ∧ (rs.length < 2 → m.volatility = some 0)
    ∧ (∀ (md : List (String × Quote)) (lot : Holding),
        dictGet md lot.symbol = none → 0 < lot.quantity * lot.purchase_price →
          (valueHolding md lot).gain_percent = -100) := by
  have hrs2 : rs = returns_of p := hrs
  obtain ⟨-, har, hvol, -, -, -⟩ := metrics_eq_some hm
  rw [← hrs2] at har hvol
  rw [if_neg hne] at har hvol
  refine ⟨?_, ?_, ?_, ?_⟩
  · rw [har]
    rfl
  · intro h2
    refine ⟨stdev rs, ?_, Real.sqrt_nonneg _, ?_⟩
    · rw [hvol]
      unfold volatility_of
      rw [if_pos (by omega : 1 < rs.length)]
    · unfold stdev
      rw [Real.sq_sqrt]
      · rfl
      · have hv : 0 ≤ sampleVariance rs := by
          unfold sampleVariance
          apply div_nonneg
          · apply List.sum_nonneg
            intro x hx
            obtain ⟨y, -, rfl⟩ := List.mem_map.mp hx
            positivity
          · have hlen : (2 : ℚ) ≤ rs.length := by exact_mod_cast h2
            linarith
        exact_mod_cast hv
  · intro hlt
    rw [hvol]
    unfold volatility_of
    rw [if_neg (by omega)]
  · intro md lot hnone hpos
    have hp0 : priceOr0 md lot.symbol = 0 := by
      unfold priceOr0
      rw [hnone]
    simp only [valueHolding, hp0, mul_zero, zero_sub]
    rw [if_pos hpos, neg_div, div_self (ne_of_gt hpos)]
    norm_num

/-- C6 witness: `pvTech` has the one-element sample [0.5]: avg_return is
its mean and volatility is 0 (fewer than two data points). -/
theorem claim_C6_witness :
    mTech.avg_return = some (([(1 : ℚ) / 2]).sum / (([(1 : ℚ) / 2]).length : ℚ))
    ∧ mTech.volatility = some 0 := by
  have h := claim_C6 pvTech mTech metrics_pvTech [1 / 2]
    (by simp [pvTech, hvTech, List.filter_cons]; norm_num) (by simp)
  exact ⟨h.1, h.2.2.1 (by norm_num)⟩

/-- C7: `generate_recommendations` returns the empty list when
total_value = 0; otherwise (for a snapshot with holdings) a Technology
weight above 0.4 puts the High-priority Rebalance record in the returned
list, and a conservative profile with a bond allocation below 0.4 of total
value puts the Medium-priority Diversification record in it. -/
theorem claim_C7 (p : PortfolioView) (profile : String) :
    (p.total_value = 0 → generate_recommendations p profile = [])
    ∧ (p.holdings ≠ [] → p.total_value ≠ 0 →
        sector_allocation p.holdings ("Technology") / p.total_value > 0.4 →
        recRebalance ∈ generate_recommendations p profile)
    ∧ (p.holdings ≠ [] → p.total_value ≠ 0 → profile = "conservative" →
        sector_allocation p.holdings ("Bonds") / p.total_value < 0.4 →
        recDiversification ∈ generate_recommendations p profile) := by
  refine ⟨?_, ?_, ?_⟩
  · intro h0
    unfold generate_recommendations
    rw [if_pos h0]
  · intro hne h0 hw
    unfold generate_recommendations
    rw [if_neg h0, metrics_isSome hne]
    dsimp only
    rw [if_pos hw]
    exact List.mem_append_left _ (List.mem_singleton.mpr rfl)
  · intro hne h0 hprof hb
    unfold generate_recommendations
    rw [if_neg h0, metrics_isSome hne]
    dsimp only
    refine List.mem_append_right _ ?_
    rw [if_pos ⟨hprof, hb⟩]
    exact List.mem_singleton.mpr rfl

/-- C7 witness: the all-Technology snapshot under a conservative profile
receives both the Rebalance and the Diversification records. -/
theorem claim_C7_witness :
    recRebalance ∈ generate_recommendations pvTech ("conservative")
    ∧ recDiversification ∈ generate_recommendations pvTech ("conservative") := by
  have hsa : sector_allocation pvTech.holdings ("Technology") = 1500 := by
    simp [sector_allocation, sectorOf, dictGet, sectors, pvTech, hvTech,
      List.filter_cons]
  have hsb : sector_allocation pvTech.holdings ("Bonds") = 0 := by
    simp [sector_allocation, sectorOf, dictGet, sectors, pvTech, hvTech,
      List.filter_cons]
  constructor
  · exact (claim_C7 pvTech ("conservative")).2.1 (by simp [pvTech])
      (by norm_num [pvTech]) (by rw [hsa]; norm_num [pvTech])
  · exact (claim_C7 pvTech ("conservative")).2.2 (by simp [pvTech])
      (by norm_num [pvTech]) rfl (by rw [hsb]; norm_num [pvTech])

/-- C10: for a portfolio with holdings all of whose gain_percent values
are exactly 0, the metrics dict exists but omits avg_return, volatility
and sharpe_ratio entirely, while still carrying the sector allocation
(the per-sector sums of current_value) and a risk_level among High,
Medium and Low. -/
theorem claim_C10 (p : PortfolioView) (sec : String)
    (hne : p.holdings ≠ []) (hz : ∀ h ∈ p.holdings, h.gain_percent = 0) :
    (calculate_portfolio_metrics p).map Metrics.avg_return = some none
    ∧ (calculate_portfolio_metrics p).map Metrics.volatility = some none
    ∧ (calculate_portfolio_metrics p).map Metrics.sharpe_ratio = some none
    ∧ (calculate_portfolio_metrics p).map (fun m => m.sector_allocation sec)
        = some (((p.holdings.filter (fun h => sectorOf h.symbol = sec)).map
            HoldingView.current_value).sum)
    ∧ ((calculate_portfolio_metrics p).map Metrics.risk_level = some ("High")
       ∨ (calculate_portfolio_metrics p).map Metrics.risk_level = some ("Medium")
       ∨ (calculate_portfolio_metrics p).map Metrics.risk_level = some ("Low")) := by
  have hret : returns_of p = [] := by
    unfold returns_of
    have : p.holdings.filter (fun h => h.gain_percent ≠ 0) = [] := by
      rw [List.filter_eq_nil_iff]
      intro a ha
      simp [hz a ha]
    rw [this, List.map_nil]
  rw [metrics_isSome hne, hret]
  simp only [Option.map_some']
  refine ⟨by simp, by simp, by simp, by simp [sector_allocation], ?_⟩
  simp only [risk_level_of]
  by_cases h1 : (if 0 < p.total_value then
      sector_allocation p.holdings ("Technology") / p.total_value else 0) > 0.4
  · left
    rw [if_pos h1]
  · by_cases h2 : (if 0 < p.total_value then
        sector_allocation p.holdings ("Technology") / p.total_value else 0) > 0.2
    · right; left
      rw [if_neg h1, if_pos h2]
    · right; right
      rw [if_neg h1, if_neg h2]

/-- C10 witness: a single zero-cost-basis holding has gain_percent 0, so
the three statistics are absent from its metrics dict. -/
theorem claim_C10_witness :
    (calculate_portfolio_metrics pvZero).map Metrics.avg_return = some none
    ∧ (calculate_portfolio_metrics pvZero).map Metrics.volatility = some none := by
  have h := claim_C10 pvZero ("Technology") (by simp [pvZero])
    (by intro h hmem; simp [pvZero] at hmem; rw [hmem])
  exact ⟨h.1, h.2.1⟩

end PortfolioAnalyzer
